import Mathlib

/-!
Verification development for the `preproyecto-tds2025` compiler.

The development shallowly embeds the Go sources:
* namespace `Codegen` — the minimal two-pass code generator
  (`generateAssemblyWithDiagnostics`, `codeGen` state, register pool,
  frame layout) together with the minimal AST it consumes
  (`Decl`/`Assign`/`Return`/`Skip` statements, expression trees);
* namespace `Sem` — the scope-chain symbol table (`Env.Lookup`),
  the duplicate-declaration check of the AST builder, the numeric-literal
  case of `buildExpr`, and the semantic analyzer's `checkReturn`/`checkExpr`.

Go `int`-typed enumerations (`Type`, `BinaryOpKind`, `CodeGenErrorKind`,
`TypeKind`, `BinOp`, `UnaryOp`) are embedded as `Int` with named constants,
matching the `iota` numbering of the source.  Go maps keyed by strings are
embedded as association lists with first-match lookup and
overwrite-or-append insertion.  A Go `(T, bool)` return with a zero value
on failure is embedded as `Option T`; a Go `(T, error)` return as
`Except String T`.
-/

namespace Codegen

/-- Go `Type` from the minimal AST (`TypeInt  Type = iota`, then
`TypeBool`, `TypeVoid`). -/
def TypeInt : Int := 0

def TypeBool : Int := 1

def TypeVoid : Int := 2

/-- Go `BinaryOpKind` constants (`OpMul BinaryOpKind = iota`, `OpDiv`,
`OpAdd`, `OpSub`). -/
def OpMul : Int := 0

def OpDiv : Int := 1

def OpAdd : Int := 2

def OpSub : Int := 3

/-- Expressions of the minimal AST consumed by the code generator
(`Identifier`, `IntLiteral`, `BoolLiteral`, `BinaryExpr`); the fields are
the ones the generator reads (`Name`/`Line` on identifiers, `Value` on
literals, `Kind`/`Left`/`Right` on binary nodes). -/
inductive Expr where
  | identExpr (name : String) (line : Int)
  | intLiteral (value : Int)
  | boolLiteral (value : Bool)
  | binaryExpr (kind : Int) (left right : Expr)
deriving DecidableEq, Repr

/-- Statements of the minimal AST (`Decl`, `Assign`, `Return`, `Skip`). -/
inductive Stmt where
  | decl (name : String) (varType : Int) (line : Int)
  | assign (name : String) (value : Expr) (line : Int)
  | ret (value : Option Expr)
  | skip
deriving DecidableEq, Repr

/-- Embeds `Block` of the minimal AST: a statement sequence. -/
structure Block where
  statements : List Stmt
deriving DecidableEq, Repr

/-- Embeds `Main` node (`Args`, `Body`); `Body` is a nullable pointer in Go. -/
structure MainNode where
  args : List String
  body : Option Block
deriving DecidableEq, Repr

/-- Embeds `Program` of the minimal AST (`ReturnType`, `Main`); `Main` is a
nullable pointer in Go. -/
structure Program where
  returnType : Int
  main : Option MainNode
deriving DecidableEq, Repr

/-- Embeds `VarInfo`: type and stack offset of a declared variable. -/
structure VarInfo where
  type : Int
  offset : Int
deriving DecidableEq, Repr

/-- Go `CodeGenErrorKind` constants (`ErrDuplicateDecl = iota`, ...). -/
def ErrDuplicateDecl : Int := 0

def ErrUseBeforeDeclare : Int := 1

def ErrTypeMismatch : Int := 2

def ErrUnknownStmt : Int := 3

def ErrUnknownExpr : Int := 4

def ErrNoRegisters : Int := 5

/-- Embeds `CodeGenError`; the Go fields `Have`/`Want` are embedded as
`hav`/`want` (`have` is a Lean keyword). -/
structure CodeGenError where
  line : Int := 0
  kind : Int := 0
  msg : String := ""
  name : String := ""
  hav : Int := 0
  want : Int := 0
deriving DecidableEq, Repr

/-- Association-list embedding of the Go map `map[string]VarInfo`. -/
abbrev Symtab := List (String × VarInfo)

/-- Map read `g.symtab[name]` (comma-ok form). -/
def lookupSym (t : Symtab) (name : String) : Option VarInfo :=
  match t with
  | [] => none
  | (k, v) :: rest => if k = name then some v else lookupSym rest name

/-- The fixed register pool `regs` of `newCodeGen`. -/
def regs : List String := ["R0", "R1", "R2", "R3"]

/-- Embeds `codeGen` state.  The Go `b *strings.Builder` is embedded as
`builder : Option (List String)` (`none` for the nil builder of the dry
pass, otherwise the lines written so far); the shared
`*CodeGenDiagnostics` is the threaded `errors` list. -/
structure CodeGen where
  builder : Option (List String)
  symtab : Symtab
  nextOffset : Int
  slotSize : Int
  errors : List CodeGenError
  abort : Bool
  dryRun : Bool
  free : List String
deriving DecidableEq, Repr

/-- Embeds `newCodeGen(b, diags, dry)`; `free` is seeded with the four pool
registers. -/
def newCodeGen (b : Option (List String)) (errs : List CodeGenError)
    (dry : Bool) : CodeGen :=
  { builder := b
    symtab := []
    nextOffset := 0
    slotSize := 8
    errors := errs
    abort := false
    dryRun := dry
    free := regs }

/-- Embeds `emit`: writes a line unless the generator is dry, aborted, or has no
builder. -/
def emit (g : CodeGen) (line : String) : CodeGen :=
  if g.dryRun || g.abort then g
  else
    match g.builder with
    | none => g
    | some out => { g with builder := some (out ++ [line]) }

/-- Embeds `addErr`: records a diagnostic and sets the abort flag. -/
def addErr (g : CodeGen) (e : CodeGenError) : CodeGen :=
  { g with errors := g.errors ++ [e], abort := true }

def errDuplicateDecl (g : CodeGen) (line : Int) (name : String) : CodeGen :=
  addErr g { line := line, kind := ErrDuplicateDecl, name := name }

def errUseBefore (g : CodeGen) (line : Int) (name : String) : CodeGen :=
  addErr g { line := line, kind := ErrUseBeforeDeclare, name := name }

def errTypeMismatch (g : CodeGen) (line : Int) (name : String)
    (hav want : Int) : CodeGen :=
  addErr g
    { line := line, kind := ErrTypeMismatch, name := name, hav := hav,
      want := want }

def errUnknownExpr (g : CodeGen) : CodeGen :=
  addErr g { kind := ErrUnknownExpr }

def errNoRegisters (g : CodeGen) : CodeGen :=
  addErr g { kind := ErrNoRegisters }

/-- Embeds `allocVar`: duplicate detection, then slot allocation at the next
offset (`nextOffset += slotSize`). -/
def allocVar (g : CodeGen) (name : String) (t : Int) (line : Int) :
    CodeGen × VarInfo :=
  let g := if (lookupSym g.symtab name).isSome then errDuplicateDecl g line name
    else g
  if g.abort then (g, { type := t, offset := 0 })
  else
    let off := g.nextOffset + g.slotSize
    let info : VarInfo := { type := t, offset := off }
    ({ g with nextOffset := off, symtab := g.symtab ++ [(name, info)] }, info)

/-- Embeds `allocReg`: pops the last element of the LIFO free list; an empty pool
is a hard `ErrNoRegisters` error (`("", false)` embedded as `none`). -/
def allocReg (g : CodeGen) : CodeGen × Option String :=
  match g.free.getLast? with
  | none => (errNoRegisters g, none)
  | some r => ({ g with free := g.free.dropLast }, some r)

/-- Embeds `freeReg`: appends a register back to the free list (ignoring the
empty register name used on failure paths). -/
def freeReg (g : CodeGen) (r : String) : CodeGen :=
  if r = "" then g else { g with free := g.free ++ [r] }

/-- Embeds `opMnemonic`: the four arithmetic `BinaryOpKind` values map to
mnemonics, anything else to `"NOP"`. -/
def opMnemonic (k : Int) : String :=
  if k = OpMul then "MUL"
  else if k = OpDiv then "DIV"
  else if k = OpAdd then "ADD"
  else if k = OpSub then "SUB"
  else "NOP"

/-- Embeds `typeOfExpr`: returns the Go pair `(Type, bool)`. -/
def typeOfExpr (g : CodeGen) : Expr → CodeGen × Int × Bool
  | .identExpr name line =>
    match lookupSym g.symtab name with
    | some info => (g, info.type, true)
    | none => (errUseBefore g line name, TypeInt, false)
  | .intLiteral _ => (g, TypeInt, true)
  | .boolLiteral _ => (g, TypeBool, true)
  | .binaryExpr _ left right =>
    let (g, _, lok) := typeOfExpr g left
    let (g, _, rok) := typeOfExpr g right
    (g, TypeInt, lok && rok)

/-- Embeds `evalExprToReg`: evaluates an expression into a register
(`("", false)` embedded as `none`). -/
def evalExprToReg (g : CodeGen) (e : Expr) : CodeGen × Option String :=
  if g.abort then (g, none)
  else
    match e with
    | .identExpr name line =>
      match lookupSym g.symtab name with
      | none => (errUseBefore g line name, none)
      | some info =>
        match allocReg g with
        | (g, none) => (g, none)
        | (g, some r) =>
          (emit g ("\tMOV " ++ r ++ ", [BP-" ++ toString info.offset ++ "] ; "
            ++ name), some r)
    | .intLiteral v =>
      match allocReg g with
      | (g, none) => (g, none)
      | (g, some r) => (emit g ("\tMOV " ++ r ++ ", " ++ toString v), some r)
    | .boolLiteral b =>
      match allocReg g with
      | (g, none) => (g, none)
      | (g, some r) =>
        let val : Int := if b then 1 else 0
        (emit g ("\tMOV " ++ r ++ ", " ++ toString val), some r)
    | .binaryExpr kind left right =>
      match evalExprToReg g left with
      | (g, none) => (g, none)
      | (g, some leftReg) =>
        match evalExprToReg g right with
        | (g, none) => (freeReg g leftReg, none)
        | (g, some rightReg) =>
          let mn := opMnemonic kind
          if mn = "NOP" then
            let g := errUnknownExpr g
            let g := freeReg g leftReg
            (freeReg g rightReg, none)
          else
            let g := emit g ("\t" ++ mn ++ " " ++ leftReg ++ ", " ++ rightReg)
            (freeReg g rightReg, some leftReg)

/-- The epilogue emitted at the end of the `*Return` case of
`generateStmt` (every return statement carries its own epilogue). -/
def retEpilogue (g : CodeGen) : CodeGen :=
  let g := emit g "\t; epilogue"
  let g := emit g "\tMOV SP, BP"
  let g := emit g "\tPOP BP"
  emit g "\tRET"

/-- Embeds `generateStmt`: per-statement generation (declaration, assignment,
return, skip). -/
def generateStmt (g : CodeGen) (s : Stmt) : CodeGen :=
  if g.abort then g
  else
    match s with
    | .decl name varType line => (allocVar g name varType line).1
    | .assign name value line =>
      match lookupSym g.symtab name with
      | none => errUseBefore g line name
      | some info =>
        let (g, valType, ok) := typeOfExpr g value
        if !ok then g
        else if valType ≠ info.type then
          errTypeMismatch g line name valType info.type
        else
          match evalExprToReg g value with
          | (g, none) => g
          | (g, some reg) =>
            let g := emit g ("\tMOV [BP-" ++ toString info.offset ++ "], "
              ++ reg)
            freeReg g reg
    | .ret value =>
      match value with
      | none => retEpilogue g
      | some v =>
        match evalExprToReg g v with
        | (g, none) => g
        | (g, some reg) =>
          let g := if reg ≠ "R0" then emit g ("\tMOV R0, " ++ reg) else g
          let g := freeReg g reg
          retEpilogue g
    | .skip => emit g "\t; skip"

/-- The statement loop of `generateBlock` (abort is re-checked before
every statement). -/
def generateStmts (g : CodeGen) : List Stmt → CodeGen
  | [] => g
  | s :: rest =>
    if g.abort then g else generateStmts (generateStmt g s) rest

/-- Embeds `generateBlock`: nil blocks and aborted generators are no-ops. -/
def generateBlock (g : CodeGen) (blk : Option Block) : CodeGen :=
  match blk with
  | none => g
  | some b => if g.abort then g else generateStmts g b.statements

/-- Embeds `b.String()` for the embedded builder: each `Fprintln` wrote one line
plus a newline. -/
def renderBuilder : List String → String
  | [] => ""
  | l :: rest => l ++ "\n" ++ renderBuilder rest

/-- Pass 1 of `generateAssemblyWithDiagnostics`: the dry layout walk
(`newCodeGen(nil, &diags, true)` followed by `generateBlock`). -/
def layoutPass (body : Block) : CodeGen :=
  generateBlock (newCodeGen none [] true) (some body)

/-- The pass-2 generator right after the prologue of
`generateAssemblyWithDiagnostics` has been emitted (`newCodeGen(b, &diags,
false)` plus the seven prologue `emit` calls, the frame-allocating one
conditional on `frame > 0`). -/
def prologueState (frame : Int) (errs : List CodeGenError) : CodeGen :=
  let g := newCodeGen (some []) errs false
  let g := emit g ".text"
  let g := emit g ".global main"
  let g := emit g "main:"
  let g := emit g "\t; prologue"
  let g := emit g "\tPUSH BP"
  let g := emit g "\tMOV BP, SP"
  if frame > 0 then emit g ("\tSUB SP, " ++ toString frame) else g

/-- Pass 2 of `generateAssemblyWithDiagnostics`: the emission walk over
the same body. -/
def emissionPass (frame : Int) (errs : List CodeGenError) (body : Block) :
    CodeGen :=
  generateBlock (prologueState frame errs) (some body)

/-- Embeds `generateAssemblyWithDiagnostics`: dry layout pass, then (absent
errors) the emission pass with the prologue sized by the layout pass's
final offset. -/
def generateAssemblyWithDiagnostics (p : Option Program) :
    String × List CodeGenError :=
  let empty : String × List CodeGenError := ("; <empty program>\n", [])
  match p with
  | none => empty
  | some prog =>
    match prog.main with
    | none => empty
    | some m =>
      match m.body with
      | none => empty
      | some body =>
        let pass1 := layoutPass body
        if pass1.errors.length > 0 then ("", pass1.errors)
        else
          let frame := pass1.nextOffset
          let g := emissionPass frame pass1.errors body
          if g.errors.length > 0 then ("", g.errors)
          else (renderBuilder (g.builder.getD []), g.errors)

/-- Forgets the emission-only components of a generator state (the text
builder and the dry-run flag), keeping the layout/diagnostic components.
Used to compare the two passes: every generator operation commutes with
`scrub`, so the emission pass recomputes exactly the layout pass's
bookkeeping. -/
def scrub (g : CodeGen) : CodeGen :=
  { g with builder := none, dryRun := true }

/-- A well-typed example program:
`main { int a; a = 5 + 2; return a; }`. -/
def exGood : Program :=
  { returnType := TypeInt
    main := some
      { args := []
        body := some
          { statements :=
              [.decl "a" TypeInt 2,
               .assign "a" (.binaryExpr OpAdd (.intLiteral 5) (.intLiteral 2)) 3,
               .ret (some (.identExpr "a" 4))] } } }

/-- A program with two independent duplicate declarations in the same
linear scan (`a` redeclared on line 2, `b` redeclared on line 4). -/
def exTwoDups : Program :=
  { returnType := TypeInt
    main := some
      { args := []
        body := some
          { statements :=
              [.decl "a" TypeInt 1, .decl "a" TypeInt 2,
               .decl "b" TypeInt 3, .decl "b" TypeInt 4] } } }

/-- A right-nested sum `1 + (2 + (3 + (4 + 5)))`, which needs five
simultaneously live registers under the generator's left-then-right
evaluation order. -/
def exDeepExpr : Expr :=
  .binaryExpr OpAdd (.intLiteral 1)
    (.binaryExpr OpAdd (.intLiteral 2)
      (.binaryExpr OpAdd (.intLiteral 3)
        (.binaryExpr OpAdd (.intLiteral 4) (.intLiteral 5))))

/-- A program returning `exDeepExpr`. -/
def exDeepProg : Program :=
  { returnType := TypeInt
    main := some
      { args := [], body := some { statements := [.ret (some exDeepExpr)] } } }

/-- A program assigning a binary expression containing an undeclared
identifier to a `bool` variable: `main { bool b; b = x + 1; }`. -/
def exBoolAssignUndeclared : Program :=
  { returnType := TypeInt
    main := some
      { args := []
        body := some
          { statements :=
              [.decl "b" TypeBool 1,
               .assign "b"
                 (.binaryExpr OpAdd (.identExpr "x" 2) (.intLiteral 1)) 2] } } }

end Codegen

namespace Sem

/-- Go `TypeKind` constants of the rich AST (`TypeVoid TypeKind = iota`,
`TypeBool`, `TypeInteger`). -/
def TypeVoid : Int := 0

def TypeBool : Int := 1

def TypeInteger : Int := 2

/-- Embeds `TypeKind.String()`. -/
def typeKindString (t : Int) : String :=
  if t = TypeVoid then "void"
  else if t = TypeBool then "bool"
  else if t = TypeInteger then "integer"
  else "unknown"

/-- Go `UnaryOp` constants (`UnaryNeg UnaryOp = iota`, `UnaryNot`). -/
def UnaryNeg : Int := 0

def UnaryNot : Int := 1

/-- Go `BinOp` constants (`BinAdd BinOp = iota`, ..., `BinOr`). -/
def BinAdd : Int := 0

def BinSub : Int := 1

def BinMul : Int := 2

def BinDiv : Int := 3

def BinEq : Int := 4

def BinLT : Int := 5

def BinGT : Int := 6

def BinAnd : Int := 7

def BinOr : Int := 8

/-- Embeds `ParamInfo` (Go fields `Name`, `Type`). -/
structure ParamInfo where
  name : String
  type : Int
deriving DecidableEq, Repr

/-- Embeds `FuncInfo` (Go fields `Return`, `Params`, `Arity`); `Return` is
embedded as `ret` (`return` is a Lean keyword). -/
structure FuncInfo where
  ret : Int
  params : List ParamInfo
  arity : Int
deriving DecidableEq, Repr

/-- Embeds `Symbol` (Go fields `Type`, `isVar`, `Func`). -/
structure Symbol where
  type : Int
  isVar : Bool
  func : Option FuncInfo := none
deriving DecidableEq, Repr

/-- Association-list embedding of the Go map `Table =
map[Identifier]Symbol`. -/
abbrev Table := List (String × Symbol)

/-- Map read `table[name]` (comma-ok form). -/
def lookupTable : Table → String → Option Symbol
  | [], _ => none
  | (k, v) :: rest, name => if k = name then some v else lookupTable rest name

/-- Map write `table[name] = symbol`: overwrite an existing key,
otherwise add the binding. -/
def insertTable (t : Table) (name : String) (sym : Symbol) : Table :=
  if (lookupTable t name).isSome then
    t.map (fun p => if p.1 = name then (name, sym) else p)
  else t ++ [(name, sym)]

/-- Embeds `Env`: a table plus an optional pointer to the enclosing scope. -/
inductive Env where
  | mk (table : Table) (prev : Option Env)

/-- Field accessor for `Env.Table`. -/
def Env.table : Env → Table
  | .mk t _ => t

/-- Field accessor for `Env.Prev`. -/
def Env.prev : Env → Option Env
  | .mk _ p => p

/-- Embeds `Env.Lookup`: search the current frame, then walk to the previous
frame, until found or the chain is exhausted (Go returns
`(Symbol{0, true}, false)` when exhausted, embedded as `none`). -/
def Env.Lookup : Env → String → Option Symbol
  | .mk table none, name => lookupTable table name
  | .mk table (some p), name =>
    match lookupTable table name with
    | some symbol => some symbol
    | none => Env.Lookup p name

/-- Embeds `Env.Insert`: adds to the current frame only. -/
def Env.Insert (env : Env) (name : String) (symbol : Symbol) : Env :=
  .mk (insertTable env.table name symbol) env.prev

/-- Modelled from the spec: the scope chain as a list of tables, current
scope first, each ancestor outward.  Used to state what "the nearest
scope that binds the name" means, independently of `Env.Lookup`. -/
def Env.chain : Env → List Table
  | .mk t none => [t]
  | .mk t (some p) => t :: Env.chain p

/-- Modelled from the spec: the nearest binding of `name` along the scope
chain — the first table that binds it wins (inner declarations hide outer
ones). -/
def chainLookup (env : Env) (name : String) : Option Symbol :=
  (Env.chain env).findSome? (fun t => lookupTable t name)

/-- The duplicate check and insertion step of `Builder.buildVarDecl`
(builder.go): fail with the `cannot double declare` error when the name
is already in the current scope's own table, otherwise insert the
variable symbol into the current scope. -/
def buildVarDeclInsert (st : Env) (name : String) (t : Int) :
    Except String Env :=
  if (lookupTable st.table name).isSome then
    .error ("cannot double declare :" ++ name)
  else .ok (st.Insert name { type := t, isVar := true })

/-- The duplicate check and insertion step of `Builder.buildMethodDecl`
(builder.go): fail with the `cannot redefine` error when the name is
already in the current scope's own table, otherwise insert the function
symbol into the current scope. -/
def buildMethodDeclInsert (st : Env) (name : String) (t : Int) :
    Except String Env :=
  if (lookupTable st.table name).isSome then
    .error ("cannot redefine:" ++ name)
  else .ok (st.Insert name { type := t, isVar := false })

/-- Expressions of the rich AST as consumed by the semantic analyzer
(part_005); each node carries its 1-based source line.  The builder's
eager type-annotation fields are not modelled (the analyzer re-infers
types and never reads them). -/
inductive Expr where
  | intLiteral (value : Int) (line : Int)
  | boolLiteral (value : Bool) (line : Int)
  | identExpr (name : String) (line : Int)
  | unaryExpr (op : Int) (expr : Expr) (line : Int)
  | binaryExpr (op : Int) (left right : Expr) (line : Int)
  | callExpr (callee : String) (args : List Expr) (line : Int)
  | parenExpr (inner : Expr) (line : Int)

/-- Embeds `ReturnStmt` (fields `Value`, `Line`). -/
structure ReturnStmt where
  value : Option Expr
  line : Int

/-- The `Analyzer` state: current scope chain, accumulated error
messages, enclosing function. -/
structure Analyzer where
  env : Env
  errors : List String
  currentFun : Option FuncInfo

/-- Embeds `Analyzer.errorf`: records a message, prefixed with the node's line
when it is positive. -/
def errorf (an : Analyzer) (line : Int) (msg : String) : Analyzer :=
  if line > 0 then
    { an with errors := an.errors ++ ["line " ++ toString line ++ ": " ++ msg] }
  else { an with errors := an.errors ++ [msg] }

mutual

/-- Structural size measure for the analyzer's recursion. -/
def exprSize : Expr → Nat
  | .intLiteral _ _ => 1
  | .boolLiteral _ _ => 1
  | .identExpr _ _ => 1
  | .unaryExpr _ e _ => exprSize e + 2
  | .binaryExpr _ l r _ => exprSize l + exprSize r + 2
  | .callExpr _ args _ => exprListSize args + 3
  | .parenExpr e _ => exprSize e + 1

/-- Size measure for argument lists. -/
def exprListSize : List Expr → Nat
  | [] => 0
  | e :: rest => exprSize e + exprListSize rest + 1

end

mutual

/-- Embeds `Analyzer.checkExpr`: returns the Go pair `(TypeKind, bool)`. -/
def checkExpr (an : Analyzer) (e : Expr) (allowVoidCall : Bool) :
    Analyzer × Int × Bool :=
  match e with
  | .intLiteral _ _ => (an, TypeInteger, true)
  | .boolLiteral _ _ => (an, TypeBool, true)
  | .identExpr name line =>
    match an.env.Lookup name with
    | none =>
      (errorf an line ("identifier used before declaration: " ++ name), 0,
        false)
    | some sym => (an, sym.type, true)
  | .parenExpr inner _ => checkExpr an inner allowVoidCall
  | .callExpr callee args line => checkCallExpr an callee args line allowVoidCall
  | .unaryExpr op expr line => checkUnary an op expr line
  | .binaryExpr op left right line => checkBinary an op left right line
termination_by exprSize e
decreasing_by all_goals simp [exprSize, exprListSize] <;> omega

/-- Embeds `Analyzer.checkCallExpr`.  The Go code first restores the internal
consistency `fi.Arity == len(fi.Params)` (a pointer-level fix-up,
embedded as a local rebinding), then checks arity, argument types
pairwise up to the shorter length, and void-call usage. -/
def checkCallExpr (an : Analyzer) (callee : String) (args : List Expr)
    (line : Int) (allowVoidCall : Bool) : Analyzer × Int × Bool :=
  match (an.env.Lookup callee).bind (fun sym => sym.func) with
  | none => (errorf an line ("call to undeclared method: " ++ callee), 0, false)
  | some fi =>
    let fi := if fi.arity ≠ (fi.params.length : Int) then
        { fi with arity := (fi.params.length : Int) }
      else fi
    let an := if (args.length : Int) ≠ fi.arity then
        errorf an line ("wrong number of arguments in call to " ++ callee
          ++ ": expected " ++ toString fi.arity ++ ", got "
          ++ toString args.length)
      else an
    let an := checkArgs an callee line 1 args fi.params
    let an := if fi.ret = TypeVoid && !allowVoidCall then
        errorf an line "void method call used as expression"
      else an
    (an, fi.ret, true)
termination_by exprListSize args + 2
decreasing_by all_goals simp [exprSize, exprListSize] <;> omega

/-- The argument-checking loop of `checkCallExpr` (`for i := 0; i < max`
with `max = min(len(args), arity)`; `idx` is the 1-based argument number
used in the message). -/
def checkArgs (an : Analyzer) (callee : String) (line : Int) (idx : Nat)
    (args : List Expr) (params : List ParamInfo) : Analyzer :=
  match args, params with
  | [], _ => an
  | _, [] => an
  | a :: rest, p :: ps =>
    let res := checkExpr an a false
    let an := res.1
    let argT := res.2.1
    let an := if argT ≠ p.type then
        errorf an line ("argument " ++ toString idx
          ++ " type mismatch in call to " ++ callee ++ ": expected "
          ++ typeKindString p.type ++ ", got " ++ typeKindString argT)
      else an
    checkArgs an callee line (idx + 1) rest ps
termination_by exprListSize args + 1
decreasing_by all_goals simp [exprSize, exprListSize] <;> omega

/-- Embeds `Analyzer.checkUnary`: `-` requires an integer operand and yields
Integer, `!` requires bool and yields Bool. -/
def checkUnary (an : Analyzer) (op : Int) (expr : Expr) (line : Int) :
    Analyzer × Int × Bool :=
  if op = UnaryNeg then
    let res := checkExpr an expr false
    let an := if res.2.1 ≠ TypeInteger then
        errorf res.1 line "unary - requires integer operand"
      else res.1
    (an, TypeInteger, true)
  else if op = UnaryNot then
    let res := checkExpr an expr false
    let an := if res.2.1 ≠ TypeBool then
        errorf res.1 line "! requires bool operand"
      else res.1
    (an, TypeBool, true)
  else (an, 0, false)
termination_by exprSize expr + 1
decreasing_by all_goals simp [exprSize, exprListSize] <;> omega

/-- Embeds `Analyzer.checkBinary`: arithmetic needs Integer operands and yields
Integer; relational needs Integer and yields Bool; `==` needs equal
operand types; `&&`/`||` need Bool. -/
def checkBinary (an : Analyzer) (op : Int) (left right : Expr) (line : Int) :
    Analyzer × Int × Bool :=
  let lres := checkExpr an left false
  let rres := checkExpr lres.1 right false
  let an := rres.1
  let lt := lres.2.1
  let rt := rres.2.1
  if op = BinAdd ∨ op = BinSub ∨ op = BinMul ∨ op = BinDiv then
    let an := if lt ≠ TypeInteger ∨ rt ≠ TypeInteger then
        errorf an line "arithmetic operands must be integer"
      else an
    (an, TypeInteger, true)
  else if op = BinLT ∨ op = BinGT then
    let an := if lt ≠ TypeInteger ∨ rt ≠ TypeInteger then
        errorf an line "relational operands must be integer"
      else an
    (an, TypeBool, true)
  else if op = BinEq then
    let an := if lt ≠ rt then
        errorf an line "== operands must be of the same type"
      else an
    (an, TypeBool, true)
  else if op = BinAnd ∨ op = BinOr then
    let an := if lt ≠ TypeBool ∨ rt ≠ TypeBool then
        errorf an line "conditional operands must be bool"
      else an
    (an, TypeBool, true)
  else (an, 0, false)
termination_by exprSize left + exprSize right + 1
decreasing_by all_goals simp [exprSize, exprListSize] <;> omega

end

/-- Embeds `Analyzer.checkReturn`: void methods forbid a return value, non-void
methods require one whose inferred type equals the method's return
type. -/
def checkReturn (an : Analyzer) (r : ReturnStmt) : Analyzer :=
  match an.currentFun with
  | none => an
  | some fi =>
    if fi.ret = TypeVoid then
      match r.value with
      | some _ => errorf an r.line "void function should not return a value"
      | none => an
    else
      match r.value with
      | none => errorf an r.line "non-void function must return a value"
      | some v =>
        let res := checkExpr an v false
        if res.2.1 ≠ fi.ret then
          errorf res.1 r.line ("return type mismatch: expected "
            ++ typeKindString fi.ret ++ ", got " ++ typeKindString res.2.1)
        else res.1

/-- Digit-list accumulator shared by the `%d` model: the usual decimal
fold. -/
def digitsVal (l : List Char) : Int :=
  l.foldl (fun a c => 10 * a + ((c.toNat : Int) - 48)) 0

/-- Embeds the `int64` range check of `strconv.ParseInt(tok, 10, 64)`
used by the `%d` scanner: a Go `int` is 64-bit, so a value outside
`[math.MinInt64, math.MaxInt64]` is a range error and nothing is
assigned. -/
def int64Range (v : Int) : Option Int :=
  if -9223372036854775808 ≤ v ∧ v ≤ 9223372036854775807 then some v else none

/-- Model of `fmt.Sscanf(s, "%d", &v)` with `v` a 64-bit Go `int`: skip
leading whitespace, accept an optional sign, require at least one
decimal digit, then convert like `strconv.ParseInt(tok, 10, 64)` — a
value outside the `int64` range is a range error; `none` when the scan
fails (in which case Go assigns nothing and `v` keeps its zero
value). -/
def scanInt (s : String) : Option Int :=
  match s.toList.dropWhile Char.isWhitespace with
  | [] => none
  | c :: rest =>
    if c = '-' then
      let ds := rest.takeWhile Char.isDigit
      if ds.isEmpty then none else int64Range (-(digitsVal ds))
    else if c = '+' then
      let ds := rest.takeWhile Char.isDigit
      if ds.isEmpty then none else int64Range (digitsVal ds)
    else
      let ds := (c :: rest).takeWhile Char.isDigit
      if ds.isEmpty then none else int64Range (digitsVal ds)

/-- The `"num"` case of `Builder.buildExpr` (builder.go), as a function
of the node's source text and line: `var v int; fmt.Sscanf(text, "%d",
&v)` — the scan error is discarded, so `v` keeps its zero value when the
scan fails — and the literal node is returned with a nil error. -/
def buildNumExpr (txt : String) (line : Int) : Except String Expr :=
  let v := (scanInt txt).getD 0
  .ok (.intLiteral v line)

/-- Modelled from the spec: a well-formed decimal-digit token
(non-empty, all characters decimal digits). -/
def isDigits (s : String) : Bool :=
  !s.toList.isEmpty && s.toList.all Char.isDigit

/-- Modelled from the spec: the decimal integer denoted by a digit
string. -/
def decimalValue (s : String) : Int :=
  digitsVal s.toList

end Sem

/-!
## Helper lemmas

`scrub` commutes with every generator operation: the layout bookkeeping
(symtab, offsets, registers, abort flag, diagnostics) never depends on
the dry-run flag or the text builder.  `BuilderExt` tracks that the text
builder only ever grows.
-/

namespace Codegen

theorem scrub_builder (g : CodeGen) : (scrub g).builder = none := rfl

theorem scrub_symtab (g : CodeGen) : (scrub g).symtab = g.symtab := rfl

theorem scrub_nextOffset (g : CodeGen) : (scrub g).nextOffset = g.nextOffset :=
  rfl

theorem scrub_errors (g : CodeGen) : (scrub g).errors = g.errors := rfl

theorem scrub_abort (g : CodeGen) : (scrub g).abort = g.abort := rfl

theorem scrub_free (g : CodeGen) : (scrub g).free = g.free := rfl

theorem scrub_emit (g : CodeGen) (l : String) : scrub (emit g l) = scrub g := by
  unfold emit
  split
  · rfl
  · cases g.builder <;> rfl

theorem emit_scrub (g : CodeGen) (l : String) : emit (scrub g) l = scrub g := by
  unfold emit scrub
  simp

theorem scrub_addErr (g : CodeGen) (e : CodeGenError) :
    addErr (scrub g) e = scrub (addErr g e) := rfl

theorem scrub_allocVar (g : CodeGen) (n : String) (t l : Int) :
    allocVar (scrub g) n t l =
      (scrub (allocVar g n t l).1, (allocVar g n t l).2) := by
  by_cases hdup : (lookupSym g.symtab n).isSome <;>
    by_cases hab : g.abort <;>
    simp [allocVar, errDuplicateDecl, addErr, scrub, hdup, hab]

theorem scrub_allocReg (g : CodeGen) :
    allocReg (scrub g) = (scrub (allocReg g).1, (allocReg g).2) := by
  unfold allocReg errNoRegisters
  simp only [scrub_free, ← scrub_addErr]
  split <;> rfl

theorem scrub_freeReg (g : CodeGen) (r : String) :
    freeReg (scrub g) r = scrub (freeReg g r) := by
  unfold freeReg
  split <;> rfl

theorem scrub_typeOfExpr (e : Expr) (g : CodeGen) :
    typeOfExpr (scrub g) e = (scrub (typeOfExpr g e).1, (typeOfExpr g e).2) := by
  induction e generalizing g with
  | identExpr name line =>
    unfold typeOfExpr errUseBefore
    simp only [scrub_symtab, ← scrub_addErr]
    split <;> rfl
  | intLiteral v => rfl
  | boolLiteral b => rfl
  | binaryExpr k l r ihl ihr =>
    unfold typeOfExpr
    simp only [ihl, ihr]

theorem scrub_retEpilogue (g : CodeGen) :
    retEpilogue (scrub g) = scrub (retEpilogue g) := by
  unfold retEpilogue
  simp only [emit_scrub, scrub_emit]

theorem scrub_evalExprToReg (e : Expr) (g : CodeGen) :
    evalExprToReg (scrub g) e =
      (scrub (evalExprToReg g e).1, (evalExprToReg g e).2) := by
  induction e generalizing g with
  | identExpr name line =>
    unfold evalExprToReg errUseBefore
    simp only [scrub_abort, scrub_symtab, ← scrub_addErr, scrub_allocReg]
    split
    · rfl
    · split
      · rfl
      · cases h : allocReg g with
        | mk g1 r =>
          cases r <;> simp [h, emit_scrub, scrub_emit]
  | intLiteral v =>
    unfold evalExprToReg
    simp only [scrub_abort, scrub_allocReg]
    split
    · rfl
    · cases h : allocReg g with
      | mk g1 r =>
        cases r <;> simp [h, emit_scrub, scrub_emit]
  | boolLiteral b =>
    unfold evalExprToReg
    simp only [scrub_abort, scrub_allocReg]
    split
    · rfl
    · cases h : allocReg g with
      | mk g1 r =>
        cases r <;> simp [h, emit_scrub, scrub_emit]
  | binaryExpr k l r ihl ihr =>
    unfold evalExprToReg
    simp only [scrub_abort]
    by_cases hab : g.abort
    · simp [hab]
    · simp only [hab, Bool.false_eq_true, if_false]
      rw [ihl]
      cases hl : evalExprToReg g l with
      | mk g1 orl =>
        cases orl with
        | none => dsimp only
        | some rl =>
          dsimp only
          rw [ihr]
          cases hr : evalExprToReg g1 r with
          | mk g2 orr =>
            cases orr with
            | none => dsimp only; rw [scrub_freeReg]
            | some rr =>
              dsimp only
              by_cases hnop : opMnemonic k = "NOP"
              · simp [hnop, ← scrub_freeReg, ← scrub_addErr, errUnknownExpr]
              · simp [hnop, ← scrub_freeReg, scrub_emit, emit_scrub]

end Codegen

namespace Codegen

theorem scrub_generateStmt (s : Stmt) (g : CodeGen) :
    generateStmt (scrub g) s = scrub (generateStmt g s) := by
  cases s with
  | decl name varType line =>
    unfold generateStmt
    simp only [scrub_abort]
    by_cases hab : g.abort
    · simp [hab]
    · simp only [hab, Bool.false_eq_true, if_false]
      rw [scrub_allocVar]
  | assign name value line =>
    unfold generateStmt
    simp only [scrub_abort, scrub_symtab]
    by_cases hab : g.abort
    · simp [hab]
    · simp only [hab, Bool.false_eq_true, if_false]
      cases hl : lookupSym g.symtab name with
      | none => rfl
      | some info =>
        dsimp only
        rw [scrub_typeOfExpr]
        cases ht : typeOfExpr g value with
        | mk g1 tb =>
          cases tb with
          | mk valType ok =>
            dsimp only
            cases ok with
            | false => rfl
            | true =>
              simp only [Bool.not_true, Bool.false_eq_true, if_false]
              by_cases hmm : valType ≠ info.type
              · simp only [if_pos hmm]
                rfl
              · simp only [if_neg hmm]
                rw [scrub_evalExprToReg]
                cases he : evalExprToReg g1 value with
                | mk g2 oreg =>
                  cases oreg with
                  | none => rfl
                  | some reg =>
                    dsimp only
                    rw [emit_scrub, ← scrub_freeReg, scrub_emit]
  | ret value =>
    unfold generateStmt
    simp only [scrub_abort]
    by_cases hab : g.abort
    · simp [hab]
    · simp only [hab, Bool.false_eq_true, if_false]
      cases value with
      | none => dsimp only; rw [scrub_retEpilogue]
      | some v =>
        dsimp only
        rw [scrub_evalExprToReg]
        cases he : evalExprToReg g v with
        | mk g1 oreg =>
          cases oreg with
          | none => dsimp only
          | some reg =>
            dsimp only
            by_cases hr0 : reg ≠ "R0"
            · simp only [if_pos hr0]
              rw [emit_scrub, ← scrub_retEpilogue, ← scrub_freeReg, scrub_emit]
            · simp only [if_neg hr0]
              rw [scrub_freeReg, scrub_retEpilogue]
  | skip =>
    unfold generateStmt
    simp only [scrub_abort]
    by_cases hab : g.abort
    · simp [hab]
    · simp only [hab, Bool.false_eq_true, if_false]
      rw [emit_scrub, scrub_emit]

theorem scrub_generateStmts (ss : List Stmt) (g : CodeGen) :
    generateStmts (scrub g) ss = scrub (generateStmts g ss) := by
  induction ss generalizing g with
  | nil => rfl
  | cons s rest ih =>
    unfold generateStmts
    simp only [scrub_abort]
    by_cases hab : g.abort
    · simp [hab]
    · simp only [hab, Bool.false_eq_true, if_false]
      rw [scrub_generateStmt, ih]

theorem scrub_generateBlock (blk : Option Block) (g : CodeGen) :
    generateBlock (scrub g) blk = scrub (generateBlock g blk) := by
  cases blk with
  | none => rfl
  | some b =>
    unfold generateBlock
    simp only [scrub_abort]
    by_cases hab : g.abort
    · simp [hab]
    · simp only [hab, Bool.false_eq_true, if_false]
      rw [scrub_generateStmts]

/-- The text builder only ever grows: `g'` extends `g`. -/
def BuilderExt (g g' : CodeGen) : Prop :=
  ∀ init, g.builder = some init → ∃ t, g'.builder = some (init ++ t)

theorem BuilderExt.rfl (g : CodeGen) : BuilderExt g g := by
  intro init h
  exact ⟨[], by simp [h]⟩

theorem BuilderExt.of_eq {g g' : CodeGen} (h : g'.builder = g.builder) :
    BuilderExt g g' := by
  intro init hi
  exact ⟨[], by simp [h, hi]⟩

theorem BuilderExt.trans {g1 g2 g3 : CodeGen} (h12 : BuilderExt g1 g2)
    (h23 : BuilderExt g2 g3) : BuilderExt g1 g3 := by
  intro init hi
  obtain ⟨t, ht⟩ := h12 init hi
  obtain ⟨u, hu⟩ := h23 _ ht
  exact ⟨t ++ u, by simp [hu]⟩

theorem emit_builderExt (g : CodeGen) (l : String) : BuilderExt g (emit g l) := by
  intro init hi
  unfold emit
  split
  · exact ⟨[], by simp [hi]⟩
  · rw [hi]
    exact ⟨[l], by simp⟩

theorem addErr_builder (g : CodeGen) (e : CodeGenError) :
    (addErr g e).builder = g.builder := rfl

theorem allocVar_builder (g : CodeGen) (n : String) (t l : Int) :
    ((allocVar g n t l).1).builder = g.builder := by
  by_cases hdup : (lookupSym g.symtab n).isSome <;>
    by_cases hab : g.abort <;>
    simp [allocVar, errDuplicateDecl, addErr, hdup, hab]

theorem allocReg_builder (g : CodeGen) :
    ((allocReg g).1).builder = g.builder := by
  unfold allocReg errNoRegisters
  split <;> rfl

theorem freeReg_builder (g : CodeGen) (r : String) :
    (freeReg g r).builder = g.builder := by
  unfold freeReg
  split <;> rfl

theorem typeOfExpr_builder (e : Expr) (g : CodeGen) :
    ((typeOfExpr g e).1).builder = g.builder := by
  induction e generalizing g with
  | identExpr name line =>
    unfold typeOfExpr
    split <;> rfl
  | intLiteral v => rfl
  | boolLiteral b => rfl
  | binaryExpr k l r ihl ihr =>
    unfold typeOfExpr
    cases hl : typeOfExpr g l with
    | mk g1 lb =>
      obtain ⟨lt, lok⟩ := lb
      cases hr : typeOfExpr g1 r with
      | mk g2 rb =>
        obtain ⟨rt, rok⟩ := rb
        dsimp only
        have e1 : g1.builder = g.builder := by
          have := ihl g
          rw [hl] at this
          exact this
        have e2 : g2.builder = g1.builder := by
          have := ihr g1
          rw [hr] at this
          exact this
        rw [hr]
        exact e2.trans e1

end Codegen

namespace Codegen

theorem evalExprToReg_builderExt (e : Expr) (g : CodeGen) :
    BuilderExt g (evalExprToReg g e).1 := by
  induction e generalizing g with
  | identExpr name line =>
    unfold evalExprToReg
    by_cases hab : g.abort
    · simp only [hab, if_true]
      exact BuilderExt.rfl g
    · simp only [hab, Bool.false_eq_true, if_false]
      cases hl : lookupSym g.symtab name with
      | none => exact BuilderExt.of_eq (addErr_builder g _)
      | some info =>
        dsimp only
        cases ha : allocReg g with
        | mk g1 oreg =>
          have hb : g1.builder = g.builder := by
            have := allocReg_builder g
            rw [ha] at this
            exact this
          cases oreg with
          | none => exact BuilderExt.of_eq hb
          | some r =>
            dsimp only
            exact (BuilderExt.of_eq hb).trans (emit_builderExt g1 _)
  | intLiteral v =>
    unfold evalExprToReg
    by_cases hab : g.abort
    · simp only [hab, if_true]
      exact BuilderExt.rfl g
    · simp only [hab, Bool.false_eq_true, if_false]
      cases ha : allocReg g with
      | mk g1 oreg =>
        have hb : g1.builder = g.builder := by
          have := allocReg_builder g
          rw [ha] at this
          exact this
        cases oreg with
        | none => exact BuilderExt.of_eq hb
        | some r =>
          dsimp only
          exact (BuilderExt.of_eq hb).trans (emit_builderExt g1 _)
  | boolLiteral b =>
    unfold evalExprToReg
    by_cases hab : g.abort
    · simp only [hab, if_true]
      exact BuilderExt.rfl g
    · simp only [hab, Bool.false_eq_true, if_false]
      cases ha : allocReg g with
      | mk g1 oreg =>
        have hb : g1.builder = g.builder := by
          have := allocReg_builder g
          rw [ha] at this
          exact this
        cases oreg with
        | none => exact BuilderExt.of_eq hb
        | some r =>
          dsimp only
          exact (BuilderExt.of_eq hb).trans (emit_builderExt g1 _)
  | binaryExpr k l r ihl ihr =>
    unfold evalExprToReg
    by_cases hab : g.abort
    · simp only [hab, if_true]
      exact BuilderExt.rfl g
    · simp only [hab, Bool.false_eq_true, if_false]
      cases hl : evalExprToReg g l with
      | mk g1 orl =>
        have h1 : BuilderExt g g1 := by
          have := ihl g
          rw [hl] at this
          exact this
        cases orl with
        | none => exact h1
        | some rl =>
          dsimp only
          cases hr : evalExprToReg g1 r with
          | mk g2 orr =>
            have h2 : BuilderExt g1 g2 := by
              have := ihr g1
              rw [hr] at this
              exact this
            cases orr with
            | none =>
              exact (h1.trans h2).trans (BuilderExt.of_eq (freeReg_builder g2 rl))
            | some rr =>
              dsimp only
              by_cases hnop : opMnemonic k = "NOP"
              · simp only [if_pos hnop]
                refine (h1.trans h2).trans (BuilderExt.of_eq ?_)
                rw [freeReg_builder, freeReg_builder]
                rfl
              · simp only [if_neg hnop]
                exact ((h1.trans h2).trans
                  (emit_builderExt g2
                    ("\t" ++ opMnemonic k ++ " " ++ rl ++ ", " ++ rr))).trans
                  (BuilderExt.of_eq (freeReg_builder _ rr))

theorem retEpilogue_builderExt (g : CodeGen) : BuilderExt g (retEpilogue g) := by
  unfold retEpilogue
  exact ((((emit_builderExt g _).trans (emit_builderExt _ _)).trans
    (emit_builderExt _ _)).trans (emit_builderExt _ _))

theorem generateStmt_builderExt (s : Stmt) (g : CodeGen) :
    BuilderExt g (generateStmt g s) := by
  cases s with
  | decl name varType line =>
    unfold generateStmt
    by_cases hab : g.abort
    · simp only [hab, if_true]
      exact BuilderExt.rfl g
    · simp only [hab, Bool.false_eq_true, if_false]
      exact BuilderExt.of_eq (allocVar_builder g name varType line)
  | assign name value line =>
    unfold generateStmt
    by_cases hab : g.abort
    · simp only [hab, if_true]
      exact BuilderExt.rfl g
    · simp only [hab, Bool.false_eq_true, if_false]
      cases hl : lookupSym g.symtab name with
      | none => exact BuilderExt.of_eq (addErr_builder g _)
      | some info =>
        dsimp only
        cases ht : typeOfExpr g value with
        | mk g1 tb =>
          obtain ⟨valType, ok⟩ := tb
          have h1 : BuilderExt g g1 := by
            have := typeOfExpr_builder value g
            rw [ht] at this
            exact BuilderExt.of_eq this
          cases ok with
          | false => exact h1
          | true =>
            simp only [Bool.not_true, Bool.false_eq_true, if_false]
            by_cases hmm : valType ≠ info.type
            · simp only [if_pos hmm]
              exact h1.trans (BuilderExt.of_eq (addErr_builder g1 _))
            · simp only [if_neg hmm]
              cases he : evalExprToReg g1 value with
              | mk g2 oreg =>
                have h2 : BuilderExt g1 g2 := by
                  have := evalExprToReg_builderExt value g1
                  rw [he] at this
                  exact this
                cases oreg with
                | none => exact h1.trans h2
                | some reg =>
                  dsimp only
                  exact ((h1.trans h2).trans (emit_builderExt g2 _)).trans
                    (BuilderExt.of_eq (freeReg_builder _ reg))
  | ret value =>
    unfold generateStmt
    by_cases hab : g.abort
    · simp only [hab, if_true]
      exact BuilderExt.rfl g
    · simp only [hab, Bool.false_eq_true, if_false]
      cases value with
      | none => exact retEpilogue_builderExt g
      | some v =>
        dsimp only
        cases he : evalExprToReg g v with
        | mk g1 oreg =>
          have h1 : BuilderExt g g1 := by
            have := evalExprToReg_builderExt v g
            rw [he] at this
            exact this
          cases oreg with
          | none => exact h1
          | some reg =>
            dsimp only
            by_cases hr0 : reg ≠ "R0"
            · simp only [if_pos hr0]
              exact (((h1.trans (emit_builderExt g1 _)).trans
                (BuilderExt.of_eq (freeReg_builder _ reg))).trans
                (retEpilogue_builderExt _))
            · simp only [if_neg hr0]
              exact ((h1.trans (BuilderExt.of_eq (freeReg_builder g1 reg))).trans
                (retEpilogue_builderExt _))
  | skip =>
    unfold generateStmt
    by_cases hab : g.abort
    · simp only [hab, if_true]
      exact BuilderExt.rfl g
    · simp only [hab, Bool.false_eq_true, if_false]
      exact emit_builderExt g _

theorem generateStmts_builderExt (ss : List Stmt) (g : CodeGen) :
    BuilderExt g (generateStmts g ss) := by
  induction ss generalizing g with
  | nil => exact BuilderExt.rfl g
  | cons s rest ih =>
    unfold generateStmts
    by_cases hab : g.abort
    · simp only [hab, if_true]
      exact BuilderExt.rfl g
    · simp only [hab, Bool.false_eq_true, if_false]
      exact (generateStmt_builderExt s g).trans (ih _)

theorem generateBlock_builderExt (blk : Option Block) (g : CodeGen) :
    BuilderExt g (generateBlock g blk) := by
  cases blk with
  | none => exact BuilderExt.rfl g
  | some b =>
    unfold generateBlock
    by_cases hab : g.abort
    · simp only [hab, if_true]
      exact BuilderExt.rfl g
    · simp only [hab, Bool.false_eq_true, if_false]
      exact generateStmts_builderExt b.statements g

theorem renderBuilder_cons_ne_empty (l : String) (rest : List String) :
    renderBuilder (l :: rest) ≠ "" := by
  unfold renderBuilder
  intro h
  have : (l ++ "\n" ++ renderBuilder rest).length = ("" : String).length := by
    rw [h]
  simp [String.length_append] at this
  exact absurd this.1.2 (by decide)

end Codegen

namespace Codegen

theorem prologueState_builder (frame : Int) (errs : List CodeGenError) :
    ∃ rest, (prologueState frame errs).builder = some (".text" :: rest) := by
  by_cases hf : frame > 0
  · exact ⟨[".global main", "main:", "\t; prologue", "\tPUSH BP",
      "\tMOV BP, SP", "\tSUB SP, " ++ toString frame],
      by simp [prologueState, hf, emit, newCodeGen]⟩
  · exact ⟨[".global main", "main:", "\t; prologue", "\tPUSH BP",
      "\tMOV BP, SP"],
      by simp [prologueState, hf, emit, newCodeGen]⟩

theorem emissionPass_builder (frame : Int) (errs : List CodeGenError)
    (body : Block) :
    ∃ rest, (emissionPass frame errs body).builder = some (".text" :: rest) := by
  obtain ⟨r0, h0⟩ := prologueState_builder frame errs
  obtain ⟨t, ht⟩ :=
    generateBlock_builderExt (some body) (prologueState frame errs) _ h0
  exact ⟨r0 ++ t, by unfold emissionPass; rw [ht]; simp⟩

/-- C1: for every program handed to the generator, the outcome is
all-or-nothing — either non-empty assembly text with an empty diagnostics
list, or empty assembly text with a non-empty diagnostics list; never
both. -/
theorem generateAssembly_allOrNothing (p : Option Program) :
    ((generateAssemblyWithDiagnostics p).1 ≠ "" ∧
      (generateAssemblyWithDiagnostics p).2 = []) ∨
    ((generateAssemblyWithDiagnostics p).1 = "" ∧
      (generateAssemblyWithDiagnostics p).2 ≠ []) := by
  unfold generateAssemblyWithDiagnostics
  cases p with
  | none => exact Or.inl ⟨by decide, rfl⟩
  | some prog =>
    dsimp only
    cases prog.main with
    | none => exact Or.inl ⟨by decide, rfl⟩
    | some m =>
      dsimp only
      cases m.body with
      | none => exact Or.inl ⟨by decide, rfl⟩
      | some body =>
        dsimp only
        by_cases h1 : (layoutPass body).errors.length > 0
        · simp only [if_pos h1]
          exact Or.inr ⟨by trivial, List.ne_nil_of_length_pos h1⟩
        · simp only [if_neg h1]
          by_cases h2 :
              (emissionPass (layoutPass body).nextOffset (layoutPass body).errors
                body).errors.length > 0
          · simp only [if_pos h2]
            exact Or.inr ⟨by trivial, List.ne_nil_of_length_pos h2⟩
          · simp only [if_neg h2]
            refine Or.inl ⟨?_, ?_⟩
            · obtain ⟨rest, hr⟩ :=
                emissionPass_builder (layoutPass body).nextOffset
                  (layoutPass body).errors body
              rw [hr]
              exact renderBuilder_cons_ne_empty _ _
            · exact List.eq_nil_of_length_eq_zero (by omega)

end Codegen

namespace Codegen

theorem scrub_prologueState (frame : Int) (errs : List CodeGenError) :
    scrub (prologueState frame errs) = newCodeGen none errs true := by
  unfold prologueState
  by_cases hf : frame > 0 <;> simp [hf, scrub_emit] <;> rfl

/-- C2: when the layout pass records no error, the emission pass —
started from the prologue sized by the layout pass's final offset —
recomputes exactly the layout pass's symbol table (every declared
variable gets the same stack offset) and the same final offset. -/
theorem layout_emission_agree (body : Block)
    (h : (layoutPass body).errors = []) :
    (emissionPass (layoutPass body).nextOffset (layoutPass body).errors
        body).symtab = (layoutPass body).symtab ∧
    (emissionPass (layoutPass body).nextOffset (layoutPass body).errors
        body).nextOffset = (layoutPass body).nextOffset ∧
    ∀ name,
      lookupSym (emissionPass (layoutPass body).nextOffset
        (layoutPass body).errors body).symtab name =
      lookupSym (layoutPass body).symtab name := by
  have key : scrub (emissionPass (layoutPass body).nextOffset
      (layoutPass body).errors body) = layoutPass body := by
    unfold emissionPass
    rw [← scrub_generateBlock, scrub_prologueState, h]
    rfl
  refine ⟨?_, ?_, ?_⟩
  · rw [← scrub_symtab, key]
  · rw [← scrub_nextOffset, key]
  · intro name
    rw [← scrub_symtab, key]

/-- C2 witness: on the concrete well-typed program the two passes agree. -/
theorem layout_emission_agree_witness :
    ((layoutPass { statements :=
        [.decl "a" TypeInt 2,
         .assign "a" (.binaryExpr OpAdd (.intLiteral 5) (.intLiteral 2)) 3,
         .ret (some (.identExpr "a" 4))] }).errors = []) ∧
    ((emissionPass (layoutPass { statements :=
        [.decl "a" TypeInt 2,
         .assign "a" (.binaryExpr OpAdd (.intLiteral 5) (.intLiteral 2)) 3,
         .ret (some (.identExpr "a" 4))] }).nextOffset
        (layoutPass { statements :=
        [.decl "a" TypeInt 2,
         .assign "a" (.binaryExpr OpAdd (.intLiteral 5) (.intLiteral 2)) 3,
         .ret (some (.identExpr "a" 4))] }).errors
        { statements :=
        [.decl "a" TypeInt 2,
         .assign "a" (.binaryExpr OpAdd (.intLiteral 5) (.intLiteral 2)) 3,
         .ret (some (.identExpr "a" 4))] }).symtab =
      (layoutPass { statements :=
        [.decl "a" TypeInt 2,
         .assign "a" (.binaryExpr OpAdd (.intLiteral 5) (.intLiteral 2)) 3,
         .ret (some (.identExpr "a" 4))] }).symtab) :=
  ⟨by decide, (layout_emission_agree _ (by decide)).1⟩

/-- C3 counterexample: on a body with two independent duplicate
declarations (`a` on line 2, `b` on line 4) the generator records only
the first duplicate; the walk does not continue, so the duplicate of `b`
is never reported — contradicting the claim that every later
duplicate-declaration error in the same linear scan is also recorded. -/
theorem twoDups_only_first_recorded :
    generateAssemblyWithDiagnostics (some exTwoDups) =
      ("", [{ line := 2, kind := ErrDuplicateDecl, name := "a" }]) := by
  decide

/-- C3 (amended): once the abort flag is set, the generator stops both
emitting and walking: an aborted generator leaves `generateBlock`
untouched, and a statement that records the pass's first error ends the
statement loop at the next iteration. -/
theorem abort_stops_walk :
    (∀ (g : CodeGen) (blk : Option Block), g.abort = true →
      generateBlock g blk = g) ∧
    (∀ (g : CodeGen) (s : Stmt) (rest : List Stmt), g.abort = false →
      (generateStmt g s).abort = true →
      generateStmts g (s :: rest) = generateStmt g s) := by
  constructor
  · intro g blk h
    cases blk with
    | none => rfl
    | some b =>
      unfold generateBlock
      simp only [h, if_true]
  · intro g s rest hgf hab
    unfold generateStmts
    simp only [hgf, Bool.false_eq_true, if_false]
    cases rest with
    | nil => rfl
    | cons r rs =>
      unfold generateStmts
      simp only [hab, if_true]

/-- C3 witness: the amended behavior at concrete inputs — an aborted
generator ignores a block, and a first-error statement ends the loop. -/
theorem abort_stops_walk_witness :
    (generateBlock (addErr (newCodeGen none [] true) {})
        (some { statements := [.skip] }) =
      addErr (newCodeGen none [] true) {}) ∧
    (generateStmts (newCodeGen none [] true)
        [.assign "a" (.intLiteral 1) 1, .skip] =
      generateStmt (newCodeGen none [] true) (.assign "a" (.intLiteral 1) 1)) :=
  ⟨abort_stops_walk.1 _ _ rfl, abort_stops_walk.2 _ _ _ rfl rfl⟩

/-- C4: allocating a register from an empty free list is a hard
`ErrNoRegisters` error that sets the abort flag and returns no register
(no spill path exists), and the concrete expression needing five
simultaneously live registers compiles to no assembly at all, with
`ErrNoRegisters` as the sole diagnostic. -/
theorem registerExhaustion_no_spill :
    (∀ g : CodeGen, g.free = [] →
      allocReg g = (errNoRegisters g, none) ∧
      (errNoRegisters g).abort = true ∧
      (errNoRegisters g).errors = g.errors ++ [{ kind := ErrNoRegisters }]) ∧
    generateAssemblyWithDiagnostics (some exDeepProg) =
      ("", [{ kind := ErrNoRegisters }]) := by
  constructor
  · intro g h
    refine ⟨?_, rfl, rfl⟩
    unfold allocReg
    rw [h]
    rfl
  · decide

/-- C4 witness: the empty-pool case at a concrete state. -/
theorem registerExhaustion_no_spill_witness :
    allocReg { newCodeGen none [] true with free := [] } =
      (errNoRegisters { newCodeGen none [] true with free := [] }, none) :=
  (registerExhaustion_no_spill.1 _ rfl).1

/-- C5: for a binary expression, the left operand is evaluated first and
the right operand second; right after the operator instruction is
emitted the right operand's register is freed, and the left operand's
register is returned as holding the result. -/
theorem binary_left_right_free (g : CodeGen) (k : Int) (l r : Expr)
    (g1 g2 : CodeGen) (rl rr : String)
    (hl : evalExprToReg g l = (g1, some rl))
    (hr : evalExprToReg g1 r = (g2, some rr))
    (hmn : opMnemonic k ≠ "NOP") :
    evalExprToReg g (.binaryExpr k l r) =
      (freeReg (emit g2 ("\t" ++ opMnemonic k ++ " " ++ rl ++ ", " ++ rr)) rr,
        some rl) := by
  cases habs : g.abort with
  | true =>
    exfalso
    unfold evalExprToReg at hl
    rw [habs] at hl
    simp at hl
  | false =>
    unfold evalExprToReg
    rw [habs]
    dsimp only
    rw [hl]
    dsimp only
    rw [hr]
    dsimp only
    rw [if_neg hmn]
    rfl

/-- C5 witness: `1 + 2` from a fresh emission-pass generator — left into
`R3`, right into `R2`, `ADD R3, R2`, `R2` freed, result in `R3`. -/
theorem binary_left_right_free_witness :
    evalExprToReg (newCodeGen (some []) [] false)
        (.binaryExpr OpAdd (.intLiteral 1) (.intLiteral 2)) =
      (freeReg (emit (evalExprToReg (evalExprToReg (newCodeGen (some []) [] false)
            (.intLiteral 1)).1 (.intLiteral 2)).1
          ("\t" ++ opMnemonic OpAdd ++ " " ++ "R3" ++ ", " ++ "R2")) "R2",
        some "R3") :=
  binary_left_right_free (newCodeGen (some []) [] false) OpAdd
    (.intLiteral 1) (.intLiteral 2)
    ((evalExprToReg (newCodeGen (some []) [] false) (.intLiteral 1)).1)
    ((evalExprToReg (evalExprToReg (newCodeGen (some []) [] false)
      (.intLiteral 1)).1 (.intLiteral 2)).1)
    "R3" "R2" (by decide) (by decide) (by decide)

/-- C10 counterexample: assigning the binary expression `x + 1` (with `x`
undeclared) to a variable declared `bool` produces a use-before-declare
diagnostic, not a type-mismatch one — refuting that such an assignment
always produces a type-mismatch diagnostic. -/
theorem boolAssign_undeclared_no_mismatch :
    generateAssemblyWithDiagnostics (some exBoolAssignUndeclared) =
      ("", [{ line := 2, kind := ErrUseBeforeDeclare, name := "x" }]) := by
  decide

/-- C10 (amended): `typeOfExpr` returns Integer for every binary
expression regardless of its operator and operand types; consequently a
binary expression assigned to a `bool`-typed variable never emits a
store, and it produces the `ErrTypeMismatch` diagnostic precisely when
the generator has not aborted and both operand types resolve (otherwise
the recorded diagnostic is the operand-resolution error instead). -/
theorem typeOfExpr_binary_int :
    (∀ (g : CodeGen) (k : Int) (l r : Expr),
      (typeOfExpr g (.binaryExpr k l r)).2.1 = TypeInt) ∧
    (∀ (g : CodeGen) (name : String) (k : Int) (l r : Expr) (line : Int)
      (info : VarInfo), lookupSym g.symtab name = some info →
      info.type = TypeBool →
      (generateStmt g (.assign name (.binaryExpr k l r) line)).builder =
        g.builder) ∧
    (∀ (g : CodeGen) (name : String) (k : Int) (l r : Expr) (line : Int)
      (info : VarInfo), g.abort = false →
      lookupSym g.symtab name = some info →
      info.type = TypeBool →
      (typeOfExpr g (.binaryExpr k l r)).2.2 = true →
      generateStmt g (.assign name (.binaryExpr k l r) line) =
        errTypeMismatch (typeOfExpr g (.binaryExpr k l r)).1 line name
          TypeInt TypeBool) := by
  refine ⟨?_, ?_, ?_⟩
  · intro g k l r
    unfold typeOfExpr
    rfl
  · intro g name k l r line info hlk htype
    unfold generateStmt
    by_cases hab : g.abort
    · simp only [hab, if_true]
    · simp only [hab, Bool.false_eq_true, if_false]
      rw [hlk]
      dsimp only
      cases ht : typeOfExpr g (.binaryExpr k l r) with
      | mk g1 tb =>
        obtain ⟨valType, ok⟩ := tb
        have hvt : valType = TypeInt := by
          have : (typeOfExpr g (.binaryExpr k l r)).2.1 = TypeInt := by
            unfold typeOfExpr
            rfl
          rw [ht] at this
          exact this
        have hb1 : g1.builder = g.builder := by
          have := typeOfExpr_builder (.binaryExpr k l r) g
          rw [ht] at this
          exact this
        cases ok with
        | false => exact hb1
        | true =>
          simp only [Bool.not_true, Bool.false_eq_true, if_false]
          have hne : valType ≠ info.type := by
            rw [hvt, htype]
            decide
          simp only [if_pos hne]
          exact hb1
  · intro g name k l r line info hab hlk htype hok
    unfold generateStmt
    simp only [hab, Bool.false_eq_true, if_false]
    rw [hlk]
    dsimp only
    cases ht : typeOfExpr g (.binaryExpr k l r) with
    | mk g1 tb =>
      obtain ⟨valType, ok⟩ := tb
      have hvt : valType = TypeInt := by
        have : (typeOfExpr g (.binaryExpr k l r)).2.1 = TypeInt := by
          unfold typeOfExpr
          rfl
        rw [ht] at this
        exact this
      have hokv : ok = true := by
        rw [ht] at hok
        exact hok
      subst hokv
      simp only [Bool.not_true, Bool.false_eq_true, if_false]
      have hne : valType ≠ info.type := by
        rw [hvt, htype]
        decide
      simp only [if_pos hne]
      rw [hvt, htype]

/-- C10 witness: the amended behavior at a concrete state — a binary
expression of two literals assigned to a `bool` variable records
`ErrTypeMismatch` and emits nothing. -/
theorem typeOfExpr_binary_int_witness :
    generateStmt { newCodeGen (some []) [] false with
        symtab := [("b", { type := TypeBool, offset := 8 })] }
      (.assign "b" (.binaryExpr OpAdd (.intLiteral 1) (.intLiteral 1)) 2) =
      errTypeMismatch
        (typeOfExpr { newCodeGen (some []) [] false with
            symtab := [("b", { type := TypeBool, offset := 8 })] }
          (.binaryExpr OpAdd (.intLiteral 1) (.intLiteral 1))).1
        2 "b" TypeInt TypeBool :=
  typeOfExpr_binary_int.2.2 _ "b" OpAdd _ _ 2
    { type := TypeBool, offset := 8 } rfl (by decide) rfl (by decide)

end Codegen

namespace Sem

theorem Lookup_eq_chainLookup : ∀ (env : Env) (name : String),
    Env.Lookup env name = chainLookup env name
  | .mk t none, name => by
    unfold Env.Lookup chainLookup Env.chain
    rw [List.findSome?_cons]
    cases h : lookupTable t name <;> simp [h]
  | .mk t (some p), name => by
    unfold Env.Lookup chainLookup Env.chain
    rw [List.findSome?_cons]
    cases h : lookupTable t name with
    | none =>
      have := Lookup_eq_chainLookup p name
      unfold chainLookup at this
      simpa using this
    | some s => simp [h]

/-- C6: `Env.Lookup` returns the binding of the nearest scope in the
chain that binds the name (current scope first, then each ancestor
outward — an inner binding hides an outer one), and reports not-found
exactly when no scope in the chain binds the name. -/
theorem lookup_nearest_scope (env : Env) (name : String) :
    Env.Lookup env name = chainLookup env name ∧
    (Env.Lookup env name = none ↔
      ∀ t ∈ Env.chain env, lookupTable t name = none) := by
  refine ⟨Lookup_eq_chainLookup env name, ?_⟩
  rw [Lookup_eq_chainLookup env name]
  unfold chainLookup
  exact List.findSome?_eq_none_iff

/-- C7: a declaration whose name is already bound in the current scope's
own table fails with the duplicate error before inserting, for both
variable and method declarations; a name absent from the current table —
even one bound in an ancestor scope — is inserted into the current
scope, leaving the parent chain untouched. -/
theorem buildDecl_duplicate_current_scope_only (st : Env) (name : String)
    (t : Int) :
    (∀ sym, lookupTable st.table name = some sym →
      buildVarDeclInsert st name t =
        .error ("cannot double declare :" ++ name) ∧
      buildMethodDeclInsert st name t =
        .error ("cannot redefine:" ++ name)) ∧
    (lookupTable st.table name = none →
      buildVarDeclInsert st name t =
        .ok (Env.mk (st.table ++ [(name, { type := t, isVar := true })])
          st.prev) ∧
      buildMethodDeclInsert st name t =
        .ok (Env.mk (st.table ++ [(name, { type := t, isVar := false })])
          st.prev)) := by
  constructor
  · intro sym h
    have hs : (lookupTable st.table name).isSome := by rw [h]; rfl
    constructor
    · unfold buildVarDeclInsert
      rw [if_pos hs]
    · unfold buildMethodDeclInsert
      rw [if_pos hs]
  · intro h
    have hs : ¬(lookupTable st.table name).isSome = true := by rw [h]; simp
    constructor
    · unfold buildVarDeclInsert
      rw [if_neg hs]
      unfold Env.Insert insertTable
      rw [if_neg hs]
    · unfold buildMethodDeclInsert
      rw [if_neg hs]
      unfold Env.Insert insertTable
      rw [if_neg hs]

/-- C7 witness: with current table binding only `y` and the ancestor
binding `x`, declaring `y` fails with the duplicate error while
declaring `x` (bound only in the ancestor) succeeds and inserts into the
current scope. -/
theorem buildDecl_duplicate_current_scope_only_witness :
    (buildVarDeclInsert
        (Env.mk [("y", { type := TypeInteger, isVar := true })]
          (some (Env.mk [("x", { type := TypeInteger, isVar := true })] none)))
        "y" TypeInteger = .error "cannot double declare :y") ∧
    (buildVarDeclInsert
        (Env.mk [("y", { type := TypeInteger, isVar := true })]
          (some (Env.mk [("x", { type := TypeInteger, isVar := true })] none)))
        "x" TypeInteger =
      .ok (Env.mk
        [("y", { type := TypeInteger, isVar := true }),
         ("x", { type := TypeInteger, isVar := true })]
        (some (Env.mk [("x", { type := TypeInteger, isVar := true })] none)))) :=
  ⟨((buildDecl_duplicate_current_scope_only
      (Env.mk [("y", { type := TypeInteger, isVar := true })]
        (some (Env.mk [("x", { type := TypeInteger, isVar := true })] none)))
      "y" TypeInteger).1
      { type := TypeInteger, isVar := true } rfl).1,
   ((buildDecl_duplicate_current_scope_only
      (Env.mk [("y", { type := TypeInteger, isVar := true })]
        (some (Env.mk [("x", { type := TypeInteger, isVar := true })] none)))
      "x" TypeInteger).2 rfl).1⟩

theorem isDigit_not_whitespace (c : Char) (h : c.isDigit = true) :
    c.isWhitespace = false := by
  simp only [Char.isDigit, ge_iff_le, Bool.and_eq_true, decide_eq_true_eq] at h
  simp only [Char.isWhitespace, Bool.or_eq_false_iff, decide_eq_false_iff_not]
  refine ⟨⟨⟨?_, ?_⟩, ?_⟩, ?_⟩ <;> rintro rfl <;> revert h <;> decide

theorem takeWhile_all_eq {l : List Char} (h : ∀ c ∈ l, c.isDigit = true) :
    l.takeWhile Char.isDigit = l :=
  List.takeWhile_eq_self_iff.mpr h

/-- C9 counterexample: a `num` node whose text is not decimal digits does
not make the builder fail — the scan error is ignored and the literal is
built with value 0. -/
theorem buildNumExpr_malformed_ok :
    buildNumExpr "abc" 1 = .ok (.intLiteral 0 1) := by
  rfl

theorem digitsVal_aux_nonneg : ∀ (l : List Char) (a : Int),
    (∀ c ∈ l, c.isDigit = true) → 0 ≤ a →
    0 ≤ l.foldl (fun a c => 10 * a + ((c.toNat : Int) - 48)) a
  | [], _, _, ha => ha
  | c :: cs, a, h, ha => by
    rw [List.foldl_cons]
    refine digitsVal_aux_nonneg cs _
      (fun x hx => h x (List.mem_cons_of_mem c hx)) ?_
    have hc := h c (List.mem_cons_self c cs)
    simp only [Char.isDigit, ge_iff_le, Bool.and_eq_true,
      decide_eq_true_eq] at hc
    have h48 : (48 : Nat) ≤ c.toNat :=
      UInt32.le_toNat_of_le (by decide) hc.1
    have h48i : (48 : Int) ≤ (c.toNat : Int) := by exact_mod_cast h48
    omega

theorem digitsVal_nonneg (l : List Char) (h : ∀ c ∈ l, c.isDigit = true) :
    0 ≤ digitsVal l :=
  digitsVal_aux_nonneg l 0 h le_rfl

theorem scanInt_digits (s : String) (h : isDigits s = true) :
    scanInt s = int64Range (decimalValue s) := by
  unfold isDigits at h
  simp only [Bool.and_eq_true, Bool.not_eq_true', List.all_eq_true] at h
  obtain ⟨hne, hall⟩ := h
  unfold scanInt
  have hdrop : s.toList.dropWhile Char.isWhitespace = s.toList := by
    cases hl : s.toList with
    | nil => rfl
    | cons c cs =>
      have hc : c.isDigit = true :=
        hall c (by rw [hl]; exact List.mem_cons_self c cs)
      simp [List.dropWhile_cons, isDigit_not_whitespace c hc]
  rw [hdrop]
  cases hl : s.toList with
  | nil =>
    rw [hl] at hne
    exact absurd hne (by decide)
  | cons c cs =>
    have hc : c.isDigit = true :=
      hall c (by rw [hl]; exact List.mem_cons_self c cs)
    have hcm : c ≠ '-' := by rintro rfl; revert hc; decide
    have hcp : c ≠ '+' := by rintro rfl; revert hc; decide
    have htake : (c :: cs).takeWhile Char.isDigit = c :: cs := by
      apply takeWhile_all_eq
      intro x hx
      exact hall x (by rw [hl]; exact hx)
    dsimp only
    rw [if_neg hcm, if_neg hcp, htake]
    simp only [List.isEmpty_cons, Bool.false_eq_true, if_false]
    unfold decimalValue
    rw [hl]

/-- C9 (amended): a well-formed decimal-digit token whose decimal value
fits Go's 64-bit `int` is parsed to the decimal integer it denotes; a
digit token beyond `math.MaxInt64` makes the scan fail with a range
error, which the builder also ignores, so the literal is built with
value 0; and the builder never returns a build error for a numeric
literal — on malformed digits the scan failure is likewise ignored and
the value defaults to 0. -/
theorem buildNumExpr_decimal :
    (∀ (s : String) (line : Int), isDigits s = true →
      decimalValue s ≤ 9223372036854775807 →
      buildNumExpr s line = .ok (.intLiteral (decimalValue s) line)) ∧
    (∀ (s : String) (line : Int), isDigits s = true →
      9223372036854775807 < decimalValue s →
      buildNumExpr s line = .ok (.intLiteral 0 line)) ∧
    (∀ (s : String) (line : Int) (msg : String),
      buildNumExpr s line ≠ .error msg) := by
  refine ⟨?_, ?_, ?_⟩
  · intro s line h hle
    have h0 : 0 ≤ decimalValue s := by
      unfold decimalValue
      refine digitsVal_nonneg s.toList ?_
      unfold isDigits at h
      simp only [Bool.and_eq_true, Bool.not_eq_true', List.all_eq_true] at h
      exact h.2
    unfold buildNumExpr
    rw [scanInt_digits s h]
    unfold int64Range
    rw [if_pos ⟨by omega, hle⟩]
    rfl
  · intro s line h hgt
    unfold buildNumExpr
    rw [scanInt_digits s h]
    unfold int64Range
    rw [if_neg (by omega)]
    rfl
  · intro s line msg
    unfold buildNumExpr
    intro h
    exact Except.noConfusion h

/-- C9 witness: `"123"` parses to the decimal value 123, while the
20-digit token beyond `math.MaxInt64` is scanned to 0 by the ignored
range error. -/
theorem buildNumExpr_decimal_witness :
    buildNumExpr "123" 7 = .ok (.intLiteral (decimalValue "123") 7) ∧
    buildNumExpr "99999999999999999999" 7 = .ok (.intLiteral 0 7) :=
  ⟨buildNumExpr_decimal.1 "123" 7 (by decide) (by decide),
   buildNumExpr_decimal.2.1 "99999999999999999999" 7 (by decide) (by decide)⟩

end Sem

namespace Sem

theorem errors_ext_trans2 (an a1 a2 : Analyzer)
    (h1 : ∃ t, a1.errors = an.errors ++ t)
    (h2 : ∃ t, a2.errors = a1.errors ++ t) :
    ∃ t, a2.errors = an.errors ++ t := by
  obtain ⟨t, ht⟩ := h1
  obtain ⟨u, hu⟩ := h2
  exact ⟨t ++ u, by rw [hu, ht, List.append_assoc]⟩

theorem errorf_ext (an : Analyzer) (l : Int) (m : String) :
    ∃ t, (errorf an l m).errors = an.errors ++ t := by
  unfold errorf
  split
  · exact ⟨_, rfl⟩
  · exact ⟨_, rfl⟩

theorem errorf_errors_ne (an : Analyzer) (l : Int) (m : String) :
    ∃ x, (errorf an l m).errors = an.errors ++ [x] := by
  unfold errorf
  split
  · exact ⟨_, rfl⟩
  · exact ⟨_, rfl⟩

theorem ite_errorf_ext (an : Analyzer) (c : Prop) [Decidable c] (l : Int)
    (m : String) :
    ∃ t, (if c then errorf an l m else an).errors = an.errors ++ t := by
  split
  · exact errorf_ext an l m
  · exact ⟨[], by simp⟩

mutual

theorem checkExpr_errExt (an : Analyzer) (e : Expr) (b : Bool) :
    ∃ t, (checkExpr an e b).1.errors = an.errors ++ t := by
  cases e with
  | intLiteral v line => exact ⟨[], by simp [checkExpr]⟩
  | boolLiteral v line => exact ⟨[], by simp [checkExpr]⟩
  | identExpr name line =>
    rw [checkExpr]
    cases h : Env.Lookup an.env name with
    | none => exact errorf_ext an line ("identifier used before declaration: " ++ name)
    | some sym => exact ⟨[], by simp⟩
  | parenExpr inner line =>
    rw [checkExpr]
    exact checkExpr_errExt an inner b
  | callExpr callee args line =>
    rw [checkExpr]
    exact checkCallExpr_errExt an callee args line b
  | unaryExpr op expr line =>
    rw [checkExpr]
    exact checkUnary_errExt an op expr line
  | binaryExpr op left right line =>
    rw [checkExpr]
    exact checkBinary_errExt an op left right line
termination_by exprSize e
decreasing_by all_goals simp [exprSize, exprListSize] <;> omega

theorem checkCallExpr_errExt (an : Analyzer) (callee : String)
    (args : List Expr) (line : Int) (b : Bool) :
    ∃ t, (checkCallExpr an callee args line b).1.errors = an.errors ++ t := by
  rw [checkCallExpr]
  cases hf : (an.env.Lookup callee).bind (fun sym => sym.func) with
  | none =>
    exact errorf_ext an line ("call to undeclared method: " ++ callee)
  | some fi =>
    refine errors_ext_trans2 an _ _
      (errors_ext_trans2 an _ _ (ite_errorf_ext an _ line _)
        (checkArgs_errExt _ callee line 1 args _))
      (ite_errorf_ext _ _ line _)
termination_by exprListSize args + 2
decreasing_by all_goals simp [exprSize, exprListSize] <;> omega

theorem checkArgs_errExt (an : Analyzer) (callee : String) (line : Int)
    (idx : Nat) (args : List Expr) (params : List ParamInfo) :
    ∃ t, (checkArgs an callee line idx args params).errors =
      an.errors ++ t := by
  cases args with
  | nil => exact ⟨[], by simp [checkArgs]⟩
  | cons a rest =>
    cases params with
    | nil => exact ⟨[], by simp [checkArgs]⟩
    | cons p ps =>
      rw [checkArgs]
      exact errors_ext_trans2 an _ _
        (errors_ext_trans2 an _ _ (checkExpr_errExt an a false)
          (ite_errorf_ext _ _ line _))
        (checkArgs_errExt _ callee line (idx + 1) rest ps)
termination_by exprListSize args + 1
decreasing_by all_goals simp [exprSize, exprListSize] <;> omega

theorem checkUnary_errExt (an : Analyzer) (op : Int) (expr : Expr)
    (line : Int) :
    ∃ t, (checkUnary an op expr line).1.errors = an.errors ++ t := by
  rw [checkUnary]
  split
  · dsimp only
    exact errors_ext_trans2 an _ _ (checkExpr_errExt an expr false)
      (ite_errorf_ext _ _ line _)
  · split
    · dsimp only
      exact errors_ext_trans2 an _ _ (checkExpr_errExt an expr false)
        (ite_errorf_ext _ _ line _)
    · exact ⟨[], by simp⟩
termination_by exprSize expr + 1
decreasing_by all_goals simp [exprSize, exprListSize] <;> omega

theorem checkBinary_errExt (an : Analyzer) (op : Int) (left right : Expr)
    (line : Int) :
    ∃ t, (checkBinary an op left right line).1.errors = an.errors ++ t := by
  rw [checkBinary]
  dsimp only
  have h12 : ∃ t, (checkExpr (checkExpr an left false).1 right false).1.errors =
      an.errors ++ t :=
    errors_ext_trans2 an _ _ (checkExpr_errExt an left false)
      (checkExpr_errExt _ right false)
  split
  · exact errors_ext_trans2 an _ _ h12 (ite_errorf_ext _ _ line _)
  · split
    · exact errors_ext_trans2 an _ _ h12 (ite_errorf_ext _ _ line _)
    · split
      · exact errors_ext_trans2 an _ _ h12 (ite_errorf_ext _ _ line _)
      · split
        · exact errors_ext_trans2 an _ _ h12 (ite_errorf_ext _ _ line _)
        · exact h12
termination_by exprSize left + exprSize right + 1
decreasing_by all_goals simp [exprSize, exprListSize] <;> omega

end

/-- C8: for a return statement inside a method — a value is forbidden
when the method's return type is Void; a value is required when it is
not Void; and a present value whose inferred type differs from the
method's return type is reported as a return-type mismatch (the
diagnostics list strictly grows). -/
theorem checkReturn_cases (an : Analyzer) (r : ReturnStmt) (fi : FuncInfo)
    (hfi : an.currentFun = some fi) :
    (fi.ret = TypeVoid → ∀ v, r.value = some v →
      checkReturn an r =
        errorf an r.line "void function should not return a value") ∧
    (fi.ret ≠ TypeVoid → r.value = none →
      checkReturn an r =
        errorf an r.line "non-void function must return a value") ∧
    (∀ v, fi.ret ≠ TypeVoid → r.value = some v →
      (checkExpr an v false).2.1 ≠ fi.ret →
      checkReturn an r =
        errorf (checkExpr an v false).1 r.line
          ("return type mismatch: expected " ++ typeKindString fi.ret
            ++ ", got " ++ typeKindString (checkExpr an v false).2.1) ∧
      ∃ t, (checkReturn an r).errors = an.errors ++ t ∧ t ≠ []) := by
  refine ⟨?_, ?_, ?_⟩
  · intro hvoid v hval
    unfold checkReturn
    rw [hfi]
    dsimp only
    rw [if_pos hvoid, hval]
  · intro hnv hval
    unfold checkReturn
    rw [hfi]
    dsimp only
    rw [if_neg hnv, hval]
  · intro v hnv hval hty
    have heq : checkReturn an r =
        errorf (checkExpr an v false).1 r.line
          ("return type mismatch: expected " ++ typeKindString fi.ret
            ++ ", got " ++ typeKindString (checkExpr an v false).2.1) := by
      unfold checkReturn
      rw [hfi]
      dsimp only
      rw [if_neg hnv, hval]
      dsimp only
      rw [if_pos hty]
    refine ⟨heq, ?_⟩
    obtain ⟨u, hu⟩ := checkExpr_errExt an v false
    obtain ⟨x, hx⟩ := errorf_errors_ne (checkExpr an v false).1 r.line
      ("return type mismatch: expected " ++ typeKindString fi.ret
        ++ ", got " ++ typeKindString (checkExpr an v false).2.1)
    refine ⟨u ++ [x], ?_, by simp⟩
    rw [heq, hx, hu, List.append_assoc]

/-- C8 witness: `bool f(){ return 1; }` — the Integer literal against the
Bool return type is reported as a return-type mismatch. -/
theorem checkReturn_cases_witness :
    checkReturn
        (Analyzer.mk (Env.mk [] none) [] (some (FuncInfo.mk TypeBool [] 0)))
        (ReturnStmt.mk (some (Expr.intLiteral 1 1)) 1) =
      errorf
        (checkExpr
          (Analyzer.mk (Env.mk [] none) [] (some (FuncInfo.mk TypeBool [] 0)))
          (Expr.intLiteral 1 1) false).1 1
        ("return type mismatch: expected " ++ typeKindString TypeBool
          ++ ", got " ++ typeKindString
            (checkExpr
              (Analyzer.mk (Env.mk [] none) []
                (some (FuncInfo.mk TypeBool [] 0)))
              (Expr.intLiteral 1 1) false).2.1) :=
  ((checkReturn_cases
      (Analyzer.mk (Env.mk [] none) [] (some (FuncInfo.mk TypeBool [] 0)))
      (ReturnStmt.mk (some (Expr.intLiteral 1 1)) 1)
      (FuncInfo.mk TypeBool [] 0) rfl).2.2
    (Expr.intLiteral 1 1) (by decide) rfl (by simp [checkExpr]; decide)).1

end Sem

namespace Codegen

/-- C1 witness: the all-or-nothing outcome at the concrete well-typed
program. -/
theorem generateAssembly_allOrNothing_witness :
    ((generateAssemblyWithDiagnostics (some exGood)).1 ≠ "" ∧
      (generateAssemblyWithDiagnostics (some exGood)).2 = []) ∨
    ((generateAssemblyWithDiagnostics (some exGood)).1 = "" ∧
      (generateAssemblyWithDiagnostics (some exGood)).2 ≠ []) :=
  generateAssembly_allOrNothing (some exGood)

end Codegen

namespace Sem

/-- C6 witness: lookup through a two-scope chain where the inner scope
shadows `x`. -/
theorem lookup_nearest_scope_witness :
    Env.Lookup
        (Env.mk [("x", { type := TypeBool, isVar := true })]
          (some (Env.mk [("x", { type := TypeInteger, isVar := true })] none)))
        "x" =
      chainLookup
        (Env.mk [("x", { type := TypeBool, isVar := true })]
          (some (Env.mk [("x", { type := TypeInteger, isVar := true })] none)))
        "x" :=
  (lookup_nearest_scope
    (Env.mk [("x", { type := TypeBool, isVar := true })]
      (some (Env.mk [("x", { type := TypeInteger, isVar := true })] none)))
    "x").1

end Sem
